import Mathlib

/-!
Shallow embedding of the p43lz3r ESP32 CANbus TWAI library, covering
`CanConfigManager` (can_config_manager.h / its implementation file) and
`WaveshareCan` (waveshare_can.h / waveshare_can.cc): the persisted 32-byte
configuration record, JSON configuration parsing and validation, the
serial upload window, the bitrate-to-timing conversion, the RX ingestion
task with its 16-deep delivery queue and drop accounting, the software
acceptance filter, and the non-blocking queue-read operations.

Machine integers are modelled as `Nat` (the C fields are `uint8_t` /
`uint32_t`; their type-level bounds appear as explicit hypotheses where a
statement depends on them).  Fixed five-iteration loops over the
`uint32_t ids_[5]` array are unrolled.  External collaborators (the NVS
byte store, the TWAI peripheral queues, the serial byte stream, the JSON
deserializer) are modelled at their boundary: a blob is an optional byte
list, a hardware queue is a list of messages, an upload line is an
optional already-deserialized JSON document.
-/

/-- Software filter modes, from waveshare_can.h (`enum FilterMode`). -/
inductive FilterMode where
  | kFilterMonitoring
  | kFilterSpecific
deriving DecidableEq

/-- Supported bitrate constant `kBitrate125k` from can_config_manager.h. -/
def kBitrate125k : Nat := 125000

/-- Supported bitrate constant `kBitrate250k` from can_config_manager.h. -/
def kBitrate250k : Nat := 250000

/-- Supported bitrate constant `kBitrate500k` from can_config_manager.h. -/
def kBitrate500k : Nat := 500000

/-- Supported bitrate constant `kBitrate1000k` from can_config_manager.h. -/
def kBitrate1000k : Nat := 1000000

/-- Default bitrate `kDefaultBitrate = kBitrate500k` from can_config_manager.h. -/
def kDefaultBitrate : Nat := kBitrate500k

/-- Maximum standard 11-bit identifier, `kMaxStandardId = 0x7FF`. -/
def kMaxStandardId : Nat := 0x7FF

/-- Maximum extended 29-bit identifier, `kMaxExtendedId = 0x1FFFFFFF`. -/
def kMaxExtendedId : Nat := 0x1FFFFFFF

/-- Maximum number of accepted IDs, `kMaxIdCount = 5`. -/
def kMaxIdCount : Nat := 5

/-- In-memory state of `CanConfigManager`: the private fields `mode_`,
`ids_[5]`, `id_count_`, `extended_`, `bitrate_` of can_config_manager.h. -/
structure ConfigState where
  mode : FilterMode
  ids : List Nat
  idCount : Nat
  extended : Bool
  bitrate : Nat
deriving DecidableEq

/-- Type-level bounds of the C fields of `CanConfigManager`: `ids_` is a
five-element `uint32_t` array, `id_count_` is a `uint8_t`, `bitrate_` is a
`uint32_t`. -/
def WellTypedConfig (s : ConfigState) : Prop :=
  s.ids.length = 5 ∧ (∀ x ∈ s.ids, x < 2 ^ 32) ∧ s.idCount < 256 ∧ s.bitrate < 2 ^ 32

instance (s : ConfigState) : Decidable (WellTypedConfig s) := by
  unfold WellTypedConfig; infer_instance

/-- `CanConfigManager::SetDefaults`: monitoring mode, zero IDs, standard
frames, default bitrate, IDs array cleared. -/
def SetDefaults : ConfigState :=
  { mode := .kFilterMonitoring
    ids := List.replicate 5 0
    idCount := 0
    extended := false
    bitrate := kDefaultBitrate }

/-- One little-endian 32-bit store of `SaveToNVS`: the four byte writes
`buffer[off] = v & 0xFF; buffer[off+1] = (v >> 8) & 0xFF; ...`. -/
def writeLE32 (buf : List Nat) (off v : Nat) : List Nat :=
  ((((buf.set off (v &&& 0xFF)).set (off + 1) ((v >>> 8) &&& 0xFF)).set
      (off + 2) ((v >>> 16) &&& 0xFF)).set (off + 3) ((v >>> 24) &&& 0xFF))

/-- `CanConfigManager::SaveToNVS`, blob-construction part: builds the
32-byte record written to the NVS store.  The `for (i = 0; i < 5; i++)`
loop over `ids_` (offsets `2 + 4*i`) is unrolled. -/
def SaveToNVS (s : ConfigState) : List Nat :=
  let buf := List.replicate 32 0
  let buf := buf.set 0 (if s.mode == .kFilterMonitoring then 0 else 1)
  let buf := buf.set 1 s.idCount
  let buf := writeLE32 buf 2 (s.ids.getD 0 0)
  let buf := writeLE32 buf 6 (s.ids.getD 1 0)
  let buf := writeLE32 buf 10 (s.ids.getD 2 0)
  let buf := writeLE32 buf 14 (s.ids.getD 3 0)
  let buf := writeLE32 buf 18 (s.ids.getD 4 0)
  let buf := buf.set 22 (if s.extended then 1 else 0)
  writeLE32 buf 23 s.bitrate

/-- One little-endian 32-bit load of `LoadFromNVS`:
`buffer[off] | (buffer[off+1] << 8) | (buffer[off+2] << 16) | (buffer[off+3] << 24)`. -/
def readLE32 (buf : List Nat) (off : Nat) : Nat :=
  buf.getD off 0 ||| (buf.getD (off + 1) 0 <<< 8) |||
    (buf.getD (off + 2) 0 <<< 16) ||| (buf.getD (off + 3) 0 <<< 24)

/-- `CanConfigManager::LoadFromNVS`, blob-decoding part: parses a 32-byte
record into the in-memory fields, clamping an unsupported bitrate to
`kDefaultBitrate`.  The five-iteration ID read loop is unrolled. -/
def decodeBlob (buf : List Nat) : ConfigState :=
  let mode := if buf.getD 0 0 == 0 then FilterMode.kFilterMonitoring else .kFilterSpecific
  let idCount := buf.getD 1 0
  let ids := [readLE32 buf 2, readLE32 buf 6, readLE32 buf 10, readLE32 buf 14, readLE32 buf 18]
  let ext := buf.getD 22 0 == 1
  let br0 := readLE32 buf 23
  let br := if br0 != kBitrate125k && br0 != kBitrate250k &&
               br0 != kBitrate500k && br0 != kBitrate1000k then kDefaultBitrate else br0
  { mode := mode, ids := ids, idCount := idCount, extended := ext, bitrate := br }

/-- `CanConfigManager::LoadFromNVS`: a missing key or a record whose read
size is not 32 bytes falls back to `SetDefaults`; otherwise the blob is
decoded. -/
def LoadFromNVS (blob : Option (List Nat)) : ConfigState :=
  match blob with
  | none => SetDefaults
  | some buf => if buf.length ≠ 32 then SetDefaults else decodeBlob buf

/-- A little-endian byte decomposition followed by recomposition is the
identity on `uint32_t` values. -/
theorem readLE32_writeLE32_id (v : Nat) (h : v < 2 ^ 32) :
    (v &&& 0xFF) ||| (((v >>> 8) &&& 0xFF) <<< 8) |||
      (((v >>> 16) &&& 0xFF) <<< 16) ||| (((v >>> 24) &&& 0xFF) <<< 24) = v := by
  have hFF : (0xFF : Nat) = 2 ^ 8 - 1 := by norm_num
  have hmod : ∀ y : Nat, y &&& 0xFF = y % 2 ^ 8 := by
    intro y; rw [hFF]; exact Nat.and_pow_two_sub_one_eq_mod y 8
  have hb1 : (v >>> 8) &&& 0xFF = v / 2 ^ 8 % 2 ^ 8 := by
    rw [hmod, Nat.shiftRight_eq_div_pow]
  have hb2 : (v >>> 16) &&& 0xFF = v / 2 ^ 16 % 2 ^ 8 := by
    rw [hmod, Nat.shiftRight_eq_div_pow]
  have hb3 : (v >>> 24) &&& 0xFF = v / 2 ^ 24 % 2 ^ 8 := by
    rw [hmod, Nat.shiftRight_eq_div_pow]
  rw [hmod, hb1, hb2, hb3, Nat.shiftLeft_eq, Nat.shiftLeft_eq, Nat.shiftLeft_eq]
  have e1 : v % 2 ^ 8 ||| v / 2 ^ 8 % 2 ^ 8 * 2 ^ 8 =
      2 ^ 8 * (v / 2 ^ 8 % 2 ^ 8) + v % 2 ^ 8 := by
    rw [Nat.or_comm, Nat.mul_comm (v / 2 ^ 8 % 2 ^ 8)]
    exact (Nat.mul_add_lt_is_or (Nat.mod_lt v (by norm_num)) _).symm
  have l1 : 2 ^ 8 * (v / 2 ^ 8 % 2 ^ 8) + v % 2 ^ 8 < 2 ^ 16 := by
    have := Nat.mod_lt (v / 2 ^ 8) (y := 2 ^ 8) (by norm_num)
    have := Nat.mod_lt v (y := 2 ^ 8) (by norm_num)
    omega
  have e2 : 2 ^ 8 * (v / 2 ^ 8 % 2 ^ 8) + v % 2 ^ 8 ||| v / 2 ^ 16 % 2 ^ 8 * 2 ^ 16 =
      2 ^ 16 * (v / 2 ^ 16 % 2 ^ 8) + (2 ^ 8 * (v / 2 ^ 8 % 2 ^ 8) + v % 2 ^ 8) := by
    rw [Nat.or_comm, Nat.mul_comm (v / 2 ^ 16 % 2 ^ 8)]
    exact (Nat.mul_add_lt_is_or l1 _).symm
  have l2 : 2 ^ 16 * (v / 2 ^ 16 % 2 ^ 8) + (2 ^ 8 * (v / 2 ^ 8 % 2 ^ 8) + v % 2 ^ 8) < 2 ^ 24 := by
    have := Nat.mod_lt (v / 2 ^ 16) (y := 2 ^ 8) (by norm_num)
    omega
  have e3 : 2 ^ 16 * (v / 2 ^ 16 % 2 ^ 8) + (2 ^ 8 * (v / 2 ^ 8 % 2 ^ 8) + v % 2 ^ 8) |||
        v / 2 ^ 24 % 2 ^ 8 * 2 ^ 24 =
      2 ^ 24 * (v / 2 ^ 24 % 2 ^ 8) +
        (2 ^ 16 * (v / 2 ^ 16 % 2 ^ 8) + (2 ^ 8 * (v / 2 ^ 8 % 2 ^ 8) + v % 2 ^ 8)) := by
    rw [Nat.or_comm, Nat.mul_comm (v / 2 ^ 24 % 2 ^ 8)]
    exact (Nat.mul_add_lt_is_or l2 _).symm
  rw [e1, e2, e3]
  omega

/-- Duplicate check of `CanConfigManager::ValidateConfig`: the nested
`for (i) for (j = i+1)` scan, as a recursion over the ID prefix. -/
def hasDuplicate : List Nat → Bool
  | [] => false
  | x :: rest => rest.contains x || hasDuplicate rest

/-- `CanConfigManager::ValidateConfig`: mode check, supported-bitrate
check, and for specific mode the 1..5 ID-count check, the per-ID range
check against `kMaxStandardId` / `kMaxExtendedId`, and the duplicate
check.  Pure over the candidate state. -/
def ValidateConfig (s : ConfigState) : Bool :=
  if s.mode != .kFilterMonitoring && s.mode != .kFilterSpecific then false
  else if s.bitrate != kBitrate125k && s.bitrate != kBitrate250k &&
          s.bitrate != kBitrate500k && s.bitrate != kBitrate1000k then false
  else if s.mode == .kFilterSpecific then
    if s.idCount == 0 || s.idCount > kMaxIdCount then false
    else
      let maxId := if s.extended then kMaxExtendedId else kMaxStandardId
      if (s.ids.take s.idCount).any (fun v => v > maxId) then false
      else !hasDuplicate (s.ids.take s.idCount)
  else true


set_option maxHeartbeats 2000000 in
/-- The 32-byte record written by `SaveToNVS`, element by element:
`[0]` mode byte, `[1]` id count, `[2..22)` five IDs little-endian,
`[22]` extended flag, `[23..27)` bitrate little-endian, `[27..32)` zero. -/
theorem SaveToNVS_bytes (m : FilterMode) (a b c d e n : Nat) (ex : Bool) (br : Nat) :
    SaveToNVS ⟨m, [a, b, c, d, e], n, ex, br⟩ =
      [(if m == .kFilterMonitoring then 0 else 1), n,
       a &&& 0xFF, (a >>> 8) &&& 0xFF, (a >>> 16) &&& 0xFF, (a >>> 24) &&& 0xFF,
       b &&& 0xFF, (b >>> 8) &&& 0xFF, (b >>> 16) &&& 0xFF, (b >>> 24) &&& 0xFF,
       c &&& 0xFF, (c >>> 8) &&& 0xFF, (c >>> 16) &&& 0xFF, (c >>> 24) &&& 0xFF,
       d &&& 0xFF, (d >>> 8) &&& 0xFF, (d >>> 16) &&& 0xFF, (d >>> 24) &&& 0xFF,
       e &&& 0xFF, (e >>> 8) &&& 0xFF, (e >>> 16) &&& 0xFF, (e >>> 24) &&& 0xFF,
       (if ex then 1 else 0),
       br &&& 0xFF, (br >>> 8) &&& 0xFF, (br >>> 16) &&& 0xFF, (br >>> 24) &&& 0xFF,
       0, 0, 0, 0, 0] := by
  simp [SaveToNVS, writeLE32, List.replicate]

set_option maxHeartbeats 2000000 in
/-- Decoding a fully explicit 32-byte record, element by element. -/
theorem decodeBlob_bytes (x0 x1 x2 x3 x4 x5 x6 x7 x8 x9 x10 x11 x12 x13 x14 x15
    x16 x17 x18 x19 x20 x21 x22 x23 x24 x25 x26 x27 x28 x29 x30 x31 : Nat) :
    decodeBlob [x0, x1, x2, x3, x4, x5, x6, x7, x8, x9, x10, x11, x12, x13, x14,
        x15, x16, x17, x18, x19, x20, x21, x22, x23, x24, x25, x26, x27, x28, x29,
        x30, x31] =
      { mode := if x0 == 0 then FilterMode.kFilterMonitoring else .kFilterSpecific
        ids := [x2 ||| (x3 <<< 8) ||| (x4 <<< 16) ||| (x5 <<< 24),
                x6 ||| (x7 <<< 8) ||| (x8 <<< 16) ||| (x9 <<< 24),
                x10 ||| (x11 <<< 8) ||| (x12 <<< 16) ||| (x13 <<< 24),
                x14 ||| (x15 <<< 8) ||| (x16 <<< 16) ||| (x17 <<< 24),
                x18 ||| (x19 <<< 8) ||| (x20 <<< 16) ||| (x21 <<< 24)]
        idCount := x1
        extended := x22 == 1
        bitrate :=
          if (x23 ||| (x24 <<< 8) ||| (x25 <<< 16) ||| (x26 <<< 24)) != kBitrate125k &&
             (x23 ||| (x24 <<< 8) ||| (x25 <<< 16) ||| (x26 <<< 24)) != kBitrate250k &&
             (x23 ||| (x24 <<< 8) ||| (x25 <<< 16) ||| (x26 <<< 24)) != kBitrate500k &&
             (x23 ||| (x24 <<< 8) ||| (x25 <<< 16) ||| (x26 <<< 24)) != kBitrate1000k
          then kDefaultBitrate
          else x23 ||| (x24 <<< 8) ||| (x25 <<< 16) ||| (x26 <<< 24) } := by
  rfl

/-- Validation forces the bitrate into the supported set. -/
theorem ValidateConfig_bitrate (s : ConfigState) (h : ValidateConfig s = true) :
    s.bitrate = kBitrate125k ∨ s.bitrate = kBitrate250k ∨
      s.bitrate = kBitrate500k ∨ s.bitrate = kBitrate1000k := by
  unfold ValidateConfig at h
  split at h
  · exact absurd h (by simp)
  · split at h
    · exact absurd h (by simp)
    · rename_i hbr
      simp only [Bool.and_eq_true, bne_iff_ne, ne_eq, not_and] at hbr
      by_cases h1 : s.bitrate = kBitrate125k
      · exact Or.inl h1
      · by_cases h2 : s.bitrate = kBitrate250k
        · exact Or.inr (Or.inl h2)
        · by_cases h3 : s.bitrate = kBitrate500k
          · exact Or.inr (Or.inr (Or.inl h3))
          · by_cases h4 : s.bitrate = kBitrate1000k
            · exact Or.inr (Or.inr (Or.inr h4))
            · simp [h1, h2, h3, h4] at hbr

/-- A list of length five is literally a five-element list. -/
theorem five_elems (l : List Nat) (h : l.length = 5) :
    ∃ a b c d e, l = [a, b, c, d, e] := by
  match l, h with
  | [a, b, c, d, e], _ => exact ⟨a, b, c, d, e, rfl⟩

/-- Save/decode round trip over an explicit state: every field is
reproduced when the IDs and bitrate are `uint32_t` values and the bitrate
is in the supported set (so the clamp in `LoadFromNVS` does not fire). -/
theorem decodeBlob_SaveToNVS_mk (m : FilterMode) (a b c d e n : Nat) (ex : Bool) (br : Nat)
    (ha : a < 2 ^ 32) (hb : b < 2 ^ 32) (hc : c < 2 ^ 32) (hd : d < 2 ^ 32)
    (he : e < 2 ^ 32)
    (hbrs : br = kBitrate125k ∨ br = kBitrate250k ∨ br = kBitrate500k ∨ br = kBitrate1000k) :
    decodeBlob (SaveToNVS ⟨m, [a, b, c, d, e], n, ex, br⟩) = ⟨m, [a, b, c, d, e], n, ex, br⟩ := by
  rw [SaveToNVS_bytes, decodeBlob_bytes]
  show ConfigState.mk _ _ _ _ _ = ConfigState.mk _ _ _ _ _
  rw [ConfigState.mk.injEq]
  refine ⟨?_, ?_, rfl, ?_, ?_⟩
  · cases m <;> rfl
  · rw [readLE32_writeLE32_id a ha, readLE32_writeLE32_id b hb, readLE32_writeLE32_id c hc,
      readLE32_writeLE32_id d hd, readLE32_writeLE32_id e he]
  · cases ex <;> rfl
  · rcases hbrs with h | h | h | h <;> subst h <;> decide

/-- `SaveToNVS` followed by `LoadFromNVS` restores the configuration. -/
theorem LoadFromNVS_SaveToNVS (s : ConfigState) (hw : WellTypedConfig s)
    (hv : ValidateConfig s = true) : LoadFromNVS (some (SaveToNVS s)) = s := by
  obtain ⟨hlen, hids, hcount, hbr32⟩ := hw
  have hbrs := ValidateConfig_bitrate s hv
  obtain ⟨m, ids, n, ex, br⟩ := s
  obtain ⟨a, b, c, d, e, h5⟩ := five_elems ids hlen
  subst h5
  have hlen32 : (SaveToNVS ⟨m, [a, b, c, d, e], n, ex, br⟩).length = 32 := by
    rw [SaveToNVS_bytes]; rfl
  show (if (SaveToNVS ⟨m, [a, b, c, d, e], n, ex, br⟩).length ≠ 32 then SetDefaults
        else decodeBlob (SaveToNVS ⟨m, [a, b, c, d, e], n, ex, br⟩)) = _
  rw [if_neg (fun hc => hc hlen32)]
  exact decodeBlob_SaveToNVS_mk m a b c d e n ex br
    (hids a (by simp)) (hids b (by simp)) (hids c (by simp))
    (hids d (by simp)) (hids e (by simp)) hbrs

/-- An uploaded JSON configuration line after deserialization, at the
ArduinoJson boundary: `mode` as an optional string (`doc["mode"]` yields
null for a missing or non-string field), `ids` as an optional array whose
entries are the `v.as<uint32_t>()` coercion results, `extended` and
`bitrate` as optional typed fields (the `doc[key] | default` operator
substitutes the default when the field is absent). -/
structure JsonDoc where
  mode : Option String
  ids : Option (List Nat)
  extended : Option Bool
  bitrate : Option Nat
deriving DecidableEq

/-- The ID-collection loop of `ParseJsonConfig`: for each array entry,
stop once `kMaxIdCount` IDs are kept, skip zero entries, and store a
non-zero entry at `ids_[id_count_++]`. -/
def collectIds : List Nat → Nat → List Nat → Nat × List Nat
  | [], count, ids => (count, ids)
  | v :: rest, count, ids =>
    if count ≥ kMaxIdCount then (count, ids)
    else if v != 0 then collectIds rest (count + 1) (ids.set count v)
    else collectIds rest count ids

/-- Common tail of `ParseJsonConfig` after the mode branches: assign
`extended_ = doc["extended"] | false` and
`bitrate_ = doc["bitrate"] | kDefaultBitrate`, then run `ValidateConfig`
and report its verdict.  Note the field assignments happen before the
validation check and are not undone on failure. -/
def finishParse (s : ConfigState) (d : JsonDoc) : Bool × ConfigState :=
  let s := { s with extended := d.extended.getD false, bitrate := d.bitrate.getD kDefaultBitrate }
  if !ValidateConfig s then (false, s) else (true, s)

/-- `CanConfigManager::ParseJsonConfig` as a state transformer: `none`
stands for a line `deserializeJson` rejects.  The member fields are
assigned in source order: the mode branch writes `mode_` (and for
monitoring clears `id_count_` and `ids_`; for specific runs the ID
collection loop) before any later check can fail. -/
def ParseJsonConfig (s : ConfigState) (doc : Option JsonDoc) : Bool × ConfigState :=
  match doc with
  | none => (false, s)
  | some d =>
    match d.mode with
    | none => (false, s)
    | some modeStr =>
      if modeStr = "monitoring" then
        finishParse { s with mode := .kFilterMonitoring, idCount := 0,
                             ids := List.replicate 5 0 } d
      else if modeStr = "specific" then
        let s1 : ConfigState := { s with mode := .kFilterSpecific }
        match d.ids with
        | none => (false, s1)
        | some arr =>
          let r := collectIds arr 0 s1.ids
          let s2 : ConfigState := { s1 with idCount := r.1, ids := r.2 }
          if s2.idCount = 0 then (false, s2) else finishParse s2 d
      else (false, s)

/-- `CanConfigManager::WaitForConfig` over the sequence of complete lines
received inside the upload window: each line runs `ParseJsonConfig`; a
successful parse triggers `SaveToNVS` and ends the window, a failed parse
keeps collecting.  Returns the final in-memory state and the blob written
to the NVS store, if any. -/
def WaitForConfig : List (Option JsonDoc) → ConfigState → ConfigState × Option (List Nat)
  | [], s => (s, none)
  | line :: rest, s =>
    let r := ParseJsonConfig s line
    if r.1 then (r.2, some (SaveToNVS r.2)) else WaitForConfig rest r.2

/-- The `twai_timing_config_t` presets returned by
`BitrateToTimingConfig` (`kCan125Kbps` ... `kCan1000Kbps` from
waveshare_can.h), abstracted as an enumeration. -/
inductive TimingConfig where
  | kCan125Kbps
  | kCan250Kbps
  | kCan500Kbps
  | kCan1000Kbps
deriving DecidableEq

/-- `CanConfigManager::BitrateToTimingConfig`: the `switch` over the
supported bitrates, with the `default` case falling back to the 500 kbps
timing. -/
def BitrateToTimingConfig (bitrate : Nat) : TimingConfig :=
  if bitrate = kBitrate125k then .kCan125Kbps
  else if bitrate = kBitrate250k then .kCan250Kbps
  else if bitrate = kBitrate500k then .kCan500Kbps
  else if bitrate = kBitrate1000k then .kCan1000Kbps
  else .kCan500Kbps

/-- A successful `ParseJsonConfig` has run `ValidateConfig` on the state
it returns, and that check passed. -/
theorem ParseJsonConfig_validates (s : ConfigState) (doc : Option JsonDoc)
    (h : (ParseJsonConfig s doc).1 = true) :
    ValidateConfig (ParseJsonConfig s doc).2 = true := by
  cases doc with
  | none => simp [ParseJsonConfig] at h
  | some d =>
    cases hm : d.mode with
    | none => simp [ParseJsonConfig, hm] at h
    | some modeStr =>
      simp only [ParseJsonConfig, hm] at h ⊢
      by_cases h1 : modeStr = "monitoring"
      · simp only [if_pos h1, finishParse] at h ⊢
        split at h
        · simp at h
        · rename_i hval
          rw [if_neg hval]
          simpa using hval
      · rw [if_neg h1] at h ⊢
        by_cases h2 : modeStr = "specific"
        · rw [if_pos h2] at h ⊢
          cases hi : d.ids with
          | none => simp [hi] at h
          | some arr =>
            simp only [hi] at h ⊢
            split at h
            · simp at h
            · rename_i hz
              rw [if_neg hz]
              simp only [finishParse] at h ⊢
              split at h
              · simp at h
              · rename_i hval
                rw [if_neg hval]
                simpa using hval
        · rw [if_neg h2] at h; simp at h

/-- Any blob `WaitForConfig` hands to the NVS store is the serialization
of a state that passed `ValidateConfig`. -/
theorem WaitForConfig_saves_validated (lines : List (Option JsonDoc)) (s : ConfigState)
    (blob : List Nat) (h : (WaitForConfig lines s).2 = some blob) :
    ∃ s2, blob = SaveToNVS s2 ∧ ValidateConfig s2 = true := by
  induction lines generalizing s with
  | nil => exact absurd h (by simp [WaitForConfig])
  | cons line rest ih =>
    unfold WaitForConfig at h
    by_cases hp : (ParseJsonConfig s line).1 = true
    · rw [if_pos hp] at h
      refine ⟨(ParseJsonConfig s line).2, ?_, ParseJsonConfig_validates s line hp⟩
      simpa using h.symm
    · rw [if_neg hp] at h
      exact ih _ h

/-- A `twai_message_t`: identifier, extended-ID flag, remote-request
flag, data length code, and payload bytes. -/
structure TwaiMessage where
  identifier : Nat
  extd : Bool
  rtr : Bool
  data_length_code : Nat
  data : List Nat
deriving DecidableEq

/-- The software-filter fields of `WaveshareCan` (waveshare_can.h v2.2:
`filter_mode_`, `accepted_ids_[5]`, `accepted_id_count_`,
`extended_filter_`). -/
structure FilterCfg where
  filter_mode : FilterMode
  accepted_ids : List Nat
  accepted_id_count : Nat
  extended_filter : Bool
deriving DecidableEq

/-- The linear scan over the first `accepted_id_count_` entries of
`accepted_ids_`, returning true on the first exact identifier match. -/
def scanForId : List Nat → Nat → Bool
  | [], _ => false
  | x :: rest, i => if x == i then true else scanForId rest i

/-- Modelled from the spec: the body of `WaveshareCan::IsMessageAccepted`
is not under src/ (the v2.2 header declares it, and the spec describes
its algorithm: monitoring mode accepts everything; specific mode rejects
on an extended-flag mismatch and otherwise linearly scans the accepted-ID
prefix for an exact identifier match). -/
def IsMessageAccepted (c : FilterCfg) (msg : TwaiMessage) : Bool :=
  match c.filter_mode with
  | .kFilterMonitoring => true
  | .kFilterSpecific =>
    if msg.extd != c.extended_filter then false
    else scanForId (c.accepted_ids.take c.accepted_id_count) msg.identifier

/-- Observable state of the RX ingestion path: the 16-deep FreeRTOS
delivery queue `rx_queue_`, the `rx_dropped_count_` counter, and the
number of `rx_callback_` invocations made so far. -/
structure QState where
  queue : List TwaiMessage
  dropped : Nat
  callbacks : Nat
deriving DecidableEq

/-- Capacity of the delivery queue: `xQueueCreate(16, sizeof(twai_message_t))`
in `WaveshareCan::EnableRxInterrupt`. -/
def kRxQueueCapacity : Nat := 16

/-- The non-blocking push of `RxTask`:
`xQueueSend(rx_queue_, &message, 0)` appends when the queue has room and
otherwise fails, upon which `rx_dropped_count_++` runs.  The producer is
never blocked and no error is raised. -/
def rxQueuePush (s : QState) (m : TwaiMessage) : QState :=
  if s.queue.length < kRxQueueCapacity then { s with queue := s.queue ++ [m] }
  else { s with dropped := s.dropped + 1 }

/-- Per-message body of `WaveshareCan::RxTask` (waveshare_can.cc): invoke
`rx_callback_` on the message, then attempt the non-blocking queue push
with loss accounting. -/
def RxProcessMessage (s : QState) (m : TwaiMessage) : QState :=
  rxQueuePush { s with callbacks := s.callbacks + 1 } m

/-- Modelled from the spec: the v2.2 `RxTask` (whose body is not under
src/) runs the software filter before the callback/push sequence; a
rejected message is discarded silently with no counter change. -/
def RxProcessFiltered (c : FilterCfg) (s : QState) (m : TwaiMessage) : QState :=
  if IsMessageAccepted c m then RxProcessMessage s m else s

/-- The burst-drain loop of `RxTask`:
`while (twai_receive(&message, 0) == ESP_OK)` processes messages until
the hardware queue reports empty.  The hardware queue is the list; the
result pairs the remaining hardware queue with the final state. -/
def RxDrainLoop : List TwaiMessage → QState → List TwaiMessage × QState
  | [], s => ([], s)
  | m :: rest, s => RxDrainLoop rest (RxProcessMessage s m)

/-- One iteration of the `RxTask` loop: the blocking
`twai_receive(&message, pdMS_TO_TICKS(100))` either times out on an empty
hardware queue (no state change) or processes the first message and then
burst-drains the rest before the task yields. -/
def RxIteration : List TwaiMessage → QState → List TwaiMessage × QState
  | [], s => ([], s)
  | m :: rest, s => RxDrainLoop rest (RxProcessMessage s m)

/-- The `WaveshareCan` state consulted by the receive-side operations:
`initialized_`, `rx_interrupt_enabled_`, the optional delivery queue
`rx_queue_` (`none` models a null queue handle), and the TWAI driver's
hardware RX queue that `twai_receive` pops from. -/
structure CanState where
  initialized : Bool
  rx_interrupt_enabled : Bool
  rx_queue : Option (List TwaiMessage)
  hw_queue : List TwaiMessage
deriving DecidableEq

/-- `WaveshareCan::QueuedMessages`: 0 when RX interrupt mode is off or
the queue does not exist, otherwise the queue depth. -/
def QueuedMessages (s : CanState) : Int :=
  if !s.rx_interrupt_enabled || s.rx_queue.isNone then 0
  else ((s.rx_queue.getD []).length : Int)

/-- The output parameters a successful receive writes through its
non-null pointers: `*id`, `*extended`, `*length`, `*rtr`. -/
structure ReceiveOuts where
  id : Nat
  extended : Bool
  length : Nat
  rtr : Bool
deriving DecidableEq

/-- The payload copy step shared by `ReceiveMessage` and
`ReceiveFromQueue`: `if (!message.rtr && data) memcpy(data, message.data,
message.data_length_code)`.  The caller's buffer is an optional byte list
(`none` models a null data pointer); a copy overlays the first
`data_length_code` bytes. -/
def CopyPayload (msg : TwaiMessage) (buffer : Option (List Nat)) : Option (List Nat) :=
  if !msg.rtr then
    match buffer with
    | some b => some (msg.data.take msg.data_length_code ++ b.drop msg.data_length_code)
    | none => none
  else buffer

/-- `WaveshareCan::ReceiveFromQueue`: returns -1 when RX interrupt mode
is off, the queue is null, or the queue is empty; otherwise pops one
message, fills the output parameters, copies the payload for non-RTR
messages into a non-null buffer, and returns the data length code.
Result: (return value, outputs written, caller buffer after the call,
queue contents after the call). -/
def ReceiveFromQueue (s : CanState) (buffer : Option (List Nat)) :
    Int × Option ReceiveOuts × Option (List Nat) × List TwaiMessage :=
  if !s.rx_interrupt_enabled || s.rx_queue.isNone then (-1, none, buffer, s.rx_queue.getD [])
  else
    match s.rx_queue.getD [] with
    | [] => (-1, none, buffer, [])
    | msg :: rest =>
      ((msg.data_length_code : Int),
       some ⟨msg.identifier, msg.extd, msg.data_length_code, msg.rtr⟩,
       CopyPayload msg buffer, rest)

/-- `WaveshareCan::ReceiveMessage`: the polling receive from the hardware
queue (`twai_receive(&message, 0)`), with the same output-parameter and
payload-copy behavior as `ReceiveFromQueue`. -/
def ReceiveMessage (s : CanState) (buffer : Option (List Nat)) :
    Int × Option ReceiveOuts × Option (List Nat) × List TwaiMessage :=
  if !s.initialized then (-1, none, buffer, s.hw_queue)
  else
    match s.hw_queue with
    | [] => (-1, none, buffer, [])
    | msg :: rest =>
      ((msg.data_length_code : Int),
       some ⟨msg.identifier, msg.extd, msg.data_length_code, msg.rtr⟩,
       CopyPayload msg buffer, rest)

/-- Writing index `c` and then taking `c + 1` elements keeps the prefix
and appends the written value. -/
theorem take_set_succ (l : List Nat) (c v : Nat) (h : c < l.length) :
    (l.set c v).take (c + 1) = l.take c ++ [v] := by
  rw [List.set_eq_take_cons_drop v h, List.take_append_eq_append_take]
  have h1 : (l.take c).length = c := by
    rw [List.length_take]; omega
  rw [List.take_of_length_le (by omega), h1, Nat.add_sub_cancel_left]
  rfl

/-- The linear scan finds exactly the members of the scanned list. -/
theorem scanForId_iff (l : List Nat) (i : Nat) : scanForId l i = true ↔ i ∈ l := by
  induction l with
  | nil => simp [scanForId]
  | cons x rest ih =>
    by_cases hx : x = i
    · simp [scanForId, hx]
    · have hscan : scanForId (x :: rest) i = scanForId rest i := by
        simp [scanForId, hx]
      rw [hscan, ih, List.mem_cons]
      constructor
      · exact Or.inr
      · rintro (h | h)
        · exact absurd h.symm hx
        · exact h

/-- Invariant of the ID-collection loop of `ParseJsonConfig`: starting
from slot `c` of the five-slot array, the kept count is `c` plus the
number of non-zero entries, capped at five, and the kept prefix is the
original prefix followed by the first `5 - c` non-zero entries. -/
theorem collectIds_spec (l : List Nat) (c : Nat) (ids : List Nat)
    (hc : c ≤ 5) (hlen : ids.length = 5) :
    (collectIds l c ids).1 = min 5 (c + (l.filter (fun v => v != 0)).length) ∧
      (collectIds l c ids).2.length = 5 ∧
      (collectIds l c ids).2.take (collectIds l c ids).1 =
        ids.take c ++ (l.filter (fun v => v != 0)).take (5 - c) := by
  induction l generalizing c ids with
  | nil =>
    refine ⟨?_, hlen, ?_⟩
    · simp [collectIds]; omega
    · simp [collectIds]
  | cons v rest ih =>
    by_cases h5 : c ≥ kMaxIdCount
    · have hc5 : c = 5 := by simp [kMaxIdCount] at h5; omega
      unfold collectIds
      rw [if_pos h5]
      subst hc5
      refine ⟨by omega, hlen, ?_⟩
      simp [List.take_of_length_le (le_of_eq hlen)]
    · have hstep : collectIds (v :: rest) c ids =
          if v != 0 then collectIds rest (c + 1) (ids.set c v)
          else collectIds rest c ids := by
        conv_lhs => rw [collectIds]
        rw [if_neg h5]
      rw [hstep]
      have hclt : c < 5 := by simp [kMaxIdCount] at h5; omega
      by_cases hv : v = 0
      · rw [if_neg (by simp [hv])]
        have := ih c ids hc hlen
        simpa [hv] using this
      · rw [if_pos (by simp [hv])]
        obtain ⟨ih1, ih2, ih3⟩ := ih (c + 1) (ids.set c v) (by omega) (by simp [hlen])
        have hfilter : (v :: rest).filter (fun x => x != 0) =
            v :: rest.filter (fun x => x != 0) := by simp [hv]
        refine ⟨?_, ih2, ?_⟩
        · rw [ih1, hfilter]
          simp only [List.length_cons]
          omega
        · rw [ih3, hfilter]
          have hsub : 5 - c = (5 - (c + 1)) + 1 := by omega
          rw [hsub, List.take_succ_cons, take_set_succ ids c v (by omega)]
          simp

/-- Folding the per-message callback-and-push step over a frame list:
the queue gains exactly the frames that fit in the remaining capacity
and the drop counter gains one per frame that does not fit. -/
theorem foldl_RxProcessMessage_spec (fs : List TwaiMessage) (s : QState)
    (h : s.queue.length ≤ kRxQueueCapacity) :
    (List.foldl RxProcessMessage s fs).queue =
        s.queue ++ fs.take (kRxQueueCapacity - s.queue.length) ∧
      (List.foldl RxProcessMessage s fs).dropped =
        s.dropped + (s.queue.length + fs.length - kRxQueueCapacity) := by
  induction fs generalizing s with
  | nil =>
    refine ⟨by simp, ?_⟩
    simp only [List.foldl_nil, List.length_nil, Nat.add_zero]
    simp only [kRxQueueCapacity] at h ⊢
    omega
  | cons m rest ih =>
    rw [List.foldl_cons]
    by_cases hlt : s.queue.length < kRxQueueCapacity
    · have step : RxProcessMessage s m =
          ⟨s.queue ++ [m], s.dropped, s.callbacks + 1⟩ := by
        simp [RxProcessMessage, rxQueuePush, hlt]
      rw [step]
      obtain ⟨hq, hd⟩ := ih ⟨s.queue ++ [m], s.dropped, s.callbacks + 1⟩
        (by simp; simp [kRxQueueCapacity] at hlt ⊢; omega)
      refine ⟨?_, ?_⟩
      · rw [hq]
        simp only [List.length_append, List.length_cons, List.length_nil]
        have hsub : kRxQueueCapacity - s.queue.length =
            (kRxQueueCapacity - (s.queue.length + (0 + 1))) + 1 := by
          simp [kRxQueueCapacity] at hlt ⊢
          omega
        rw [hsub, List.take_succ_cons, List.append_assoc]
        rfl
      · rw [hd]
        simp only [List.length_append, List.length_cons, List.length_nil]
        simp [kRxQueueCapacity] at hlt ⊢
        omega
    · have step : RxProcessMessage s m =
          ⟨s.queue, s.dropped + 1, s.callbacks + 1⟩ := by
        simp [RxProcessMessage, rxQueuePush, hlt]
      rw [step]
      obtain ⟨hq, hd⟩ := ih ⟨s.queue, s.dropped + 1, s.callbacks + 1⟩ (by simpa using h)
      have heq : s.queue.length = kRxQueueCapacity := by omega
      refine ⟨?_, ?_⟩
      · rw [hq]
        simp [heq]
      · rw [hd]
        simp only [List.length_cons]
        simp [heq]
        omega

/-- Each processed frame makes exactly one callback invocation. -/
theorem foldl_RxProcessMessage_callbacks (fs : List TwaiMessage) (s : QState) :
    (List.foldl RxProcessMessage s fs).callbacks = s.callbacks + fs.length := by
  induction fs generalizing s with
  | nil => simp
  | cons m rest ih =>
    rw [List.foldl_cons, ih]
    have : (RxProcessMessage s m).callbacks = s.callbacks + 1 := by
      unfold RxProcessMessage rxQueuePush
      split <;> rfl
    rw [this]
    simp [Nat.add_assoc, Nat.add_comm 1]

/-- The burst-drain loop empties the hardware queue and folds the
per-message step over it in order. -/
theorem RxDrainLoop_foldl (src : List TwaiMessage) (s : QState) :
    RxDrainLoop src s = ([], List.foldl RxProcessMessage s src) := by
  induction src generalizing s with
  | nil => rfl
  | cons m rest ih => rw [RxDrainLoop, ih, List.foldl_cons]

/-- One `RxTask` iteration empties the hardware queue and processes all
of its frames in order. -/
theorem RxIteration_foldl (src : List TwaiMessage) (s : QState) :
    RxIteration src s = ([], List.foldl RxProcessMessage s src) := by
  cases src with
  | nil => rfl
  | cons m rest => rw [RxIteration, RxDrainLoop_foldl, List.foldl_cons]

/-- Claim C1, counterexample at a concrete input: uploading the line
with mode "specific" and ids [2048] (out of range for standard IDs) on
top of the default configuration makes `ParseJsonConfig` (which runs
`ValidateConfig`) return failure, yet the in-memory state it leaves
behind differs from the prior state: `mode_`, `id_count_` and `ids_[0]`
were overwritten before validation ran, so the observable state is not
byte-identical to its value before the call, contradicting the claim. -/
theorem parse_reject_mutates_state :
    (ParseJsonConfig SetDefaults
        (some ⟨some "specific", some [2048], some false, none⟩)).1 = false ∧
      (ParseJsonConfig SetDefaults
        (some ⟨some "specific", some [2048], some false, none⟩)).2 ≠ SetDefaults ∧
      (ParseJsonConfig SetDefaults
        (some ⟨some "specific", some [2048], some false, none⟩)).2 =
        ⟨.kFilterSpecific, [2048, 0, 0, 0, 0], 1, false, kDefaultBitrate⟩ := by
  decide

/-- Claim C2: the software filter accepts a frame exactly when the mode
is monitoring, or the frame's extended flag equals the filter's extended
flag and the identifier is among the configured accepted-ID prefix; and
in the ingestion step a frame is discarded with no queue or counter
change exactly when the filter rejects it, while an accepted frame is
either enqueued or counted as dropped. -/
theorem accept_filter_spec (c : FilterCfg) (m : TwaiMessage) :
    (IsMessageAccepted c m = true ↔
      (c.filter_mode = .kFilterMonitoring ∨
        (m.extd = c.extended_filter ∧
          m.identifier ∈ c.accepted_ids.take c.accepted_id_count))) ∧
    (∀ s : QState, IsMessageAccepted c m = false → RxProcessFiltered c s m = s) ∧
    (∀ s : QState, IsMessageAccepted c m = true →
      ((RxProcessFiltered c s m).queue = s.queue ++ [m] ∧
         (RxProcessFiltered c s m).dropped = s.dropped) ∨
      ((RxProcessFiltered c s m).queue = s.queue ∧
         (RxProcessFiltered c s m).dropped = s.dropped + 1)) := by
  refine ⟨?_, ?_, ?_⟩
  · cases hm : c.filter_mode with
    | kFilterMonitoring => simp [IsMessageAccepted, hm]
    | kFilterSpecific =>
      simp only [IsMessageAccepted, hm]
      by_cases hx : m.extd = c.extended_filter
      · simp [hx, scanForId_iff]
      · simp [hx]
  · intro s h
    simp [RxProcessFiltered, h]
  · intro s h
    simp only [RxProcessFiltered, h, if_true]
    by_cases hq : s.queue.length < kRxQueueCapacity
    · left
      simp [RxProcessMessage, rxQueuePush, hq]
    · right
      simp [RxProcessMessage, rxQueuePush, hq]

/-- Witness for C2 at concrete inputs: a specific-mode filter on ID 0x100
rejects a standard frame with ID 0x200, and the ingestion step leaves the
queue state unchanged. -/
theorem accept_filter_spec_witness :
    IsMessageAccepted ⟨.kFilterSpecific, [0x100, 0, 0, 0, 0], 1, false⟩
        ⟨0x200, false, false, 8, []⟩ = false ∧
      RxProcessFiltered ⟨.kFilterSpecific, [0x100, 0, 0, 0, 0], 1, false⟩
        ⟨[], 0, 0⟩ ⟨0x200, false, false, 8, []⟩ = ⟨[], 0, 0⟩ :=
  ⟨by decide,
   (accept_filter_spec ⟨.kFilterSpecific, [0x100, 0, 0, 0, 0], 1, false⟩
       ⟨0x200, false, false, 8, []⟩).2.1 ⟨[], 0, 0⟩ (by decide)⟩

/-- Claim C3: for every well-typed in-memory configuration that passes
`ValidateConfig`, serializing with `SaveToNVS` and decoding the 32-byte
blob with `LoadFromNVS` reproduces the identical configuration: same
mode, id count, five-element ids array, extended flag and bitrate. -/
theorem save_load_roundtrip (s : ConfigState) (hw : WellTypedConfig s)
    (hv : ValidateConfig s = true) : LoadFromNVS (some (SaveToNVS s)) = s :=
  LoadFromNVS_SaveToNVS s hw hv

/-- Witness for C3 at a concrete configuration with two specific IDs. -/
theorem save_load_roundtrip_witness :
    LoadFromNVS (some (SaveToNVS
        ⟨.kFilterSpecific, [0x100, 0x200, 0, 0, 0], 2, false, 500000⟩)) =
      ⟨.kFilterSpecific, [0x100, 0x200, 0, 0, 0], 2, false, 500000⟩ :=
  save_load_roundtrip ⟨.kFilterSpecific, [0x100, 0x200, 0, 0, 0], 2, false, 500000⟩
    (by decide) (by decide)

/-- Claim C5: pushing K frames through the RX task's push step into the
empty 16-deep delivery queue with no consumer yields exactly the first
min(K, 16) frames retrievable and exactly K - 16 (truncated at zero, that
is max(0, K-16)) drop-counter increments; the push step is total, so the
producer is never blocked and no error is raised. -/
theorem push_overflow_accounting (fs : List TwaiMessage) (d0 c0 : Nat) :
    (List.foldl RxProcessMessage ⟨[], d0, c0⟩ fs).queue = fs.take kRxQueueCapacity ∧
      (List.foldl RxProcessMessage ⟨[], d0, c0⟩ fs).queue.length =
        min fs.length kRxQueueCapacity ∧
      (List.foldl RxProcessMessage ⟨[], d0, c0⟩ fs).dropped =
        d0 + (fs.length - kRxQueueCapacity) := by
  obtain ⟨hq, hd⟩ := foldl_RxProcessMessage_spec fs ⟨[], d0, c0⟩
    (by simp [kRxQueueCapacity])
  have hq2 : (List.foldl RxProcessMessage ⟨[], d0, c0⟩ fs).queue =
      fs.take kRxQueueCapacity := by simpa using hq
  refine ⟨hq2, ?_, by simpa using hd⟩
  rw [hq2, List.length_take, Nat.min_comm]

/-- Claim C6: if the hardware frame source holds B frames at the start
of one `RxTask` iteration, that single iteration drains all B of them
(the source is left empty), processes them in order with the per-frame
callback, push and loss accounting, and invokes the callback exactly B
times before the task yields. -/
theorem rx_iteration_drains_burst (src : List TwaiMessage) (s : QState) :
    RxIteration src s = ([], List.foldl RxProcessMessage s src) ∧
      (RxIteration src s).2.callbacks = s.callbacks + src.length :=
  ⟨RxIteration_foldl src s, by
    rw [RxIteration_foldl]
    exact foldl_RxProcessMessage_callbacks src s⟩

/-- The common parse tail assigns the extended flag and bitrate (with
their defaults) and never touches the other fields, whatever the
validation verdict. -/
theorem finishParse_snd (s : ConfigState) (d : JsonDoc) :
    (finishParse s d).2 =
      { s with extended := d.extended.getD false,
               bitrate := d.bitrate.getD kDefaultBitrate } := by
  simp only [finishParse]
  split
  · rfl
  · rfl

/-- Claim C4: when parsing an uploaded JSON line, the mode field is
required and must be "monitoring" or "specific"; in specific mode a
usable ids array is required, the kept IDs are the first non-zero
entries capped at five (zero entries skipped), and an array with no
non-zero entry fails; the extended flag defaults to false and the
bitrate defaults to 500000 when the fields are absent. -/
theorem parse_json_fields (s : ConfigState) (d : JsonDoc) :
    (ParseJsonConfig s none = (false, s)) ∧
    (d.mode = none → ParseJsonConfig s (some d) = (false, s)) ∧
    (∀ mstr, d.mode = some mstr → mstr ≠ "monitoring" → mstr ≠ "specific" →
      ParseJsonConfig s (some d) = (false, s)) ∧
    (d.mode = some "specific" → d.ids = none →
      (ParseJsonConfig s (some d)).1 = false) ∧
    (∀ arr, d.mode = some "specific" → d.ids = some arr → s.ids.length = 5 →
      ((ParseJsonConfig s (some d)).2.idCount =
          min 5 (arr.filter (fun v => v != 0)).length ∧
        (ParseJsonConfig s (some d)).2.ids.take (ParseJsonConfig s (some d)).2.idCount =
          (arr.filter (fun v => v != 0)).take 5 ∧
        ((arr.filter (fun v => v != 0)).length = 0 →
          (ParseJsonConfig s (some d)).1 = false))) ∧
    (d.mode = some "monitoring" →
      (ParseJsonConfig s (some d)).2.extended = d.extended.getD false ∧
        (ParseJsonConfig s (some d)).2.bitrate = d.bitrate.getD kDefaultBitrate) ∧
    (∀ arr, d.mode = some "specific" → d.ids = some arr → s.ids.length = 5 →
      (arr.filter (fun v => v != 0)).length ≠ 0 →
      (ParseJsonConfig s (some d)).2.extended = d.extended.getD false ∧
        (ParseJsonConfig s (some d)).2.bitrate = d.bitrate.getD kDefaultBitrate) := by
  refine ⟨rfl, ?_, ?_, ?_, ?_, ?_, ?_⟩
  · intro hm
    simp [ParseJsonConfig, hm]
  · intro mstr hm h1 h2
    simp [ParseJsonConfig, hm, h1, h2]
  · intro hm hi
    simp [ParseJsonConfig, hm, hi]
  · intro arr hm hi hlen
    obtain ⟨hcnt, hl5, hpre⟩ := collectIds_spec arr 0 s.ids (by omega) hlen
    simp only [ParseJsonConfig, hm, hi]
    simp only [String.reduceEq, reduceIte]
    by_cases hz : (collectIds arr 0 s.ids).1 = 0
    · rw [if_pos hz]
      have hflen : (arr.filter (fun v => v != 0)).length = 0 := by
        rw [hz] at hcnt
        omega
      refine ⟨?_, ?_, fun _ => rfl⟩
      · simp only [hz, hflen]
        rfl
      · simp only [hz]
        have : (arr.filter (fun v => v != 0)) = [] := List.length_eq_zero.mp hflen
        simp [this]
    · rw [if_neg hz]
      rw [finishParse_snd]
      refine ⟨?_, ?_, ?_⟩
      · simpa using hcnt
      · simpa using hpre
      · intro hflen
        rw [hflen] at hcnt
        omega
  · intro hm
    simp only [ParseJsonConfig, hm]
    simp only [String.reduceEq, reduceIte]
    rw [finishParse_snd]
    exact ⟨rfl, rfl⟩
  · intro arr hm hi hlen hnz
    obtain ⟨hcnt, hl5, hpre⟩ := collectIds_spec arr 0 s.ids (by omega) hlen
    simp only [ParseJsonConfig, hm, hi]
    simp only [String.reduceEq, reduceIte]
    have hz : ¬(collectIds arr 0 s.ids).1 = 0 := by
      rw [hcnt]
      simp only [Nat.zero_add]
      omega
    rw [if_neg hz, finishParse_snd]
    exact ⟨rfl, rfl⟩

/-- Witness for C4 at concrete inputs: a missing document fails and
leaves the state alone, and a specific-mode upload whose ids array is
[0, 0x100, 0x200] keeps the two non-zero entries. -/
theorem parse_json_fields_witness :
    ParseJsonConfig SetDefaults none = (false, SetDefaults) ∧
      (ParseJsonConfig SetDefaults
          (some ⟨some "specific", some [0, 0x100, 0x200], some true, some 250000⟩)).2.idCount =
        min 5 (([0, 0x100, 0x200].filter (fun v => v != 0)).length) :=
  ⟨(parse_json_fields SetDefaults
      ⟨some "specific", some [0, 0x100, 0x200], some true, some 250000⟩).1,
   ((parse_json_fields SetDefaults
        ⟨some "specific", some [0, 0x100, 0x200], some true, some 250000⟩).2.2.2.2.1
      [0, 0x100, 0x200] rfl rfl (by decide)).1⟩

/-- Claim C7: `SaveToNVS` produces exactly 32 bytes in the fixed layout
(byte 0 the mode code, byte 1 the id count, bytes 2..21 the five IDs
little-endian, byte 22 the extended flag, bytes 23..26 the bitrate
little-endian, bytes 27..31 zero), and `LoadFromNVS`'s decoder maps a
blob of that layout back to the fields: the record starting [1, 2, ...]
with IDs 0x100 and 0x200 and 500000 little-endian at offset 23 decodes to
specific mode, id count 2, standard frames, bitrate 500000. -/
theorem blob_layout_and_decode :
    (∀ (m : FilterMode) (a b c d e n : Nat) (ex : Bool) (br : Nat),
      SaveToNVS ⟨m, [a, b, c, d, e], n, ex, br⟩ =
        [(if m == .kFilterMonitoring then 0 else 1), n,
         a &&& 0xFF, (a >>> 8) &&& 0xFF, (a >>> 16) &&& 0xFF, (a >>> 24) &&& 0xFF,
         b &&& 0xFF, (b >>> 8) &&& 0xFF, (b >>> 16) &&& 0xFF, (b >>> 24) &&& 0xFF,
         c &&& 0xFF, (c >>> 8) &&& 0xFF, (c >>> 16) &&& 0xFF, (c >>> 24) &&& 0xFF,
         d &&& 0xFF, (d >>> 8) &&& 0xFF, (d >>> 16) &&& 0xFF, (d >>> 24) &&& 0xFF,
         e &&& 0xFF, (e >>> 8) &&& 0xFF, (e >>> 16) &&& 0xFF, (e >>> 24) &&& 0xFF,
         (if ex then 1 else 0),
         br &&& 0xFF, (br >>> 8) &&& 0xFF, (br >>> 16) &&& 0xFF, (br >>> 24) &&& 0xFF,
         0, 0, 0, 0, 0] ∧
      (SaveToNVS ⟨m, [a, b, c, d, e], n, ex, br⟩).length = 32) ∧
    decodeBlob [1, 2, 0, 1, 0, 0, 0, 2, 0, 0, 0, 0, 0, 0, 0, 0, 0, 0, 0, 0, 0, 0,
        0, 32, 161, 7, 0, 0, 0, 0, 0, 0] =
      ⟨.kFilterSpecific, [0x100, 0x200, 0, 0, 0], 2, false, 500000⟩ := by
  refine ⟨fun m a b c d e n ex br => ⟨SaveToNVS_bytes m a b c d e n ex br, ?_⟩, by decide⟩
  rw [SaveToNVS_bytes]
  rfl

/-- Claim C8: a bitrate outside the supported set is never persisted and
never applied to the bus: `ValidateConfig` only passes supported
bitrates, every blob `WaitForConfig` writes to the NVS store serializes a
state whose bitrate is supported, and `BitrateToTimingConfig` maps every
unsupported value to the default 500 kbps timing. -/
theorem bitrate_never_escapes :
    (∀ s : ConfigState, ValidateConfig s = true →
      (s.bitrate = kBitrate125k ∨ s.bitrate = kBitrate250k ∨
        s.bitrate = kBitrate500k ∨ s.bitrate = kBitrate1000k)) ∧
    (∀ (lines : List (Option JsonDoc)) (s : ConfigState) (blob : List Nat),
      (WaitForConfig lines s).2 = some blob →
      ∃ s2, blob = SaveToNVS s2 ∧
        (s2.bitrate = kBitrate125k ∨ s2.bitrate = kBitrate250k ∨
          s2.bitrate = kBitrate500k ∨ s2.bitrate = kBitrate1000k)) ∧
    (∀ br : Nat, br ≠ kBitrate125k → br ≠ kBitrate250k → br ≠ kBitrate500k →
      br ≠ kBitrate1000k → BitrateToTimingConfig br = .kCan500Kbps) := by
  refine ⟨ValidateConfig_bitrate, ?_, ?_⟩
  · intro lines s blob h
    obtain ⟨s2, hb, hv⟩ := WaitForConfig_saves_validated lines s blob h
    exact ⟨s2, hb, ValidateConfig_bitrate s2 hv⟩
  · intro br h1 h2 h3 h4
    simp [BitrateToTimingConfig, h1, h2, h3, h4]

/-- Witness for C8 at concrete inputs: 300000 bps maps to the default
timing, the default configuration passes validation with a supported
bitrate, and a monitoring-mode upload makes the window save a blob whose
source state has a supported bitrate. -/
theorem bitrate_never_escapes_witness :
    BitrateToTimingConfig 300000 = TimingConfig.kCan500Kbps ∧
      (SetDefaults.bitrate = kBitrate125k ∨ SetDefaults.bitrate = kBitrate250k ∨
        SetDefaults.bitrate = kBitrate500k ∨ SetDefaults.bitrate = kBitrate1000k) ∧
      (∃ s2, SaveToNVS SetDefaults = SaveToNVS s2 ∧
        (s2.bitrate = kBitrate125k ∨ s2.bitrate = kBitrate250k ∨
          s2.bitrate = kBitrate500k ∨ s2.bitrate = kBitrate1000k)) :=
  ⟨bitrate_never_escapes.2.2 300000 (by decide) (by decide) (by decide) (by decide),
   bitrate_never_escapes.1 SetDefaults (by decide),
   bitrate_never_escapes.2.1 [some ⟨some "monitoring", none, none, none⟩] SetDefaults
     (SaveToNVS SetDefaults) (by decide)⟩

/-- Claim C9: while RX interrupt mode is off or the delivery queue does
not exist, the queued-count operation returns 0 and the pop-one
operation returns -1, degrading to "no data" instead of failing or
blocking. -/
theorem queue_reads_degrade_gracefully (s : CanState) (buffer : Option (List Nat))
    (h : s.rx_interrupt_enabled = false ∨ s.rx_queue = none) :
    QueuedMessages s = 0 ∧ (ReceiveFromQueue s buffer).1 = -1 := by
  have hc : (!s.rx_interrupt_enabled || s.rx_queue.isNone) = true := by
    rcases h with h | h <;> simp [h]
  constructor
  · simp [QueuedMessages, hc]
  · simp [ReceiveFromQueue, hc]

/-- Witness for C9: with the RX interrupt disabled (queue allocated but
engine stopped) both reads degrade to "no data". -/
theorem queue_reads_degrade_gracefully_witness :
    QueuedMessages ⟨true, false, some [], []⟩ = 0 ∧
      (ReceiveFromQueue ⟨true, false, some [], []⟩ none).1 = -1 :=
  queue_reads_degrade_gracefully ⟨true, false, some [], []⟩ none (Or.inl rfl)

/-- Claim C10: when either receive operation dequeues a remote-request
message, the caller's data buffer is left unchanged while the id,
extended, length and rtr outputs are still filled in and the return
value is the data length code; the payload is copied into the buffer
only when the message is not a remote request and the buffer pointer is
non-null. -/
theorem rtr_leaves_buffer_unchanged (msg : TwaiMessage) (buffer : Option (List Nat))
    (hrtr : msg.rtr = true) :
    (∀ (s : CanState) (rest : List TwaiMessage), s.initialized = true →
      s.hw_queue = msg :: rest →
      ReceiveMessage s buffer = ((msg.data_length_code : Int),
        some ⟨msg.identifier, msg.extd, msg.data_length_code, msg.rtr⟩, buffer, rest)) ∧
    (∀ (s : CanState) (rest : List TwaiMessage), s.rx_interrupt_enabled = true →
      s.rx_queue = some (msg :: rest) →
      ReceiveFromQueue s buffer = ((msg.data_length_code : Int),
        some ⟨msg.identifier, msg.extd, msg.data_length_code, msg.rtr⟩, buffer, rest)) ∧
    (∀ m2 : TwaiMessage, CopyPayload m2 none = none) ∧
    (∀ (m2 : TwaiMessage) (b : List Nat), m2.rtr = false →
      CopyPayload m2 (some b) =
        some (m2.data.take m2.data_length_code ++ b.drop m2.data_length_code)) := by
  refine ⟨?_, ?_, ?_, ?_⟩
  · intro s rest hinit hq
    simp [ReceiveMessage, hinit, hq, CopyPayload, hrtr]
  · intro s rest hen hq
    simp [ReceiveFromQueue, hen, hq, CopyPayload, hrtr]
  · intro m2
    cases hm : m2.rtr <;> simp [CopyPayload, hm]
  · intro m2 b h
    simp [CopyPayload, h]

/-- Witness for C10: an RTR frame with DLC 4 popped by the polling
receive leaves the 8-byte caller buffer untouched, fills the outputs and
returns 4. -/
theorem rtr_leaves_buffer_unchanged_witness :
    ReceiveMessage ⟨true, false, none, [⟨0x123, false, true, 4, []⟩]⟩
        (some [9, 9, 9, 9, 9, 9, 9, 9]) =
      (4, some ⟨0x123, false, 4, true⟩, some [9, 9, 9, 9, 9, 9, 9, 9], []) :=
  (rtr_leaves_buffer_unchanged ⟨0x123, false, true, 4, []⟩
      (some [9, 9, 9, 9, 9, 9, 9, 9]) rfl).1
    ⟨true, false, none, [⟨0x123, false, true, 4, []⟩]⟩ [] rfl rfl
